/-
Verification of the mf-test training orchestrator.

Shallow embedding of the Python sources:
  src/train.py            (extract_model, check_gpu_availability,
                           load_and_validate_config, train)
  src/sagemaker_train.py  (_check_gpu_availability, _process_constructor)
  src/start_training.py   (monitor_training_job)

Pure functions of the source become Lean functions; filesystem and
subprocess effects are abstracted by explicit parameters describing the
outcome of each external call, exactly mirroring the written control flow.
-/
import Mathlib

namespace MfTest

/-! ## Path model

Paths are strings.  `os.path.abspath` on an absolute path splits on the
separator, collapses empty and dot components and resolves dot-dot
against the stack (dropping it at the root), then renders back with a
leading separator.  `os.path.commonprefix` is the character-wise longest
common prefix of the rendered strings, exactly as in CPython. -/

/-- Python str.split on a one-character separator: the list of fields
between separator occurrences, always at least one field (the empty
string splits to one empty field). -/
def pySplit (sep : Char) : List Char → List (List Char)
  | [] => [[]]
  | c :: cs =>
    if c = sep then [] :: pySplit sep cs
    else
      match pySplit sep cs with
      | [] => [[c]]
      | r :: rs => (c :: r) :: rs

/-- Components of a path string: split on the separator, dropping empty
components (this collapses repeated separators; inputs here are absolute). -/
def splitPath (s : String) : List String :=
  ((pySplit '/' s.toList).map String.mk).filter (fun c => c != "")

/-- Resolve dot and dot-dot components against a stack of components held
in reverse order, as `os.path.normpath` does for an absolute path
(a dot-dot at the root is dropped). -/
def normStack (acc : List String) : List String → List String
  | [] => acc.reverse
  | c :: cs =>
    if c = "." then normStack acc cs
    else if c = ".." then normStack acc.tail cs
    else normStack (c :: acc) cs

/-- Normalized component list of an absolute path string. -/
def normComps (s : String) : List String :=
  normStack [] (splitPath s)

/-- Render a component list as an absolute path string. -/
def renderAbs (cs : List String) : String :=
  "/" ++ String.intercalate "/" cs

/-- `os.path.abspath` restricted to absolute inputs: normalize and render. -/
def abspathStr (s : String) : String :=
  renderAbs (normComps s)

/-- Character-wise longest common prefix of two character lists, the
semantics of `os.path.commonprefix` on two strings. -/
def commonPrefixChars : List Char → List Char → List Char
  | a :: as, b :: bs => if a = b then a :: commonPrefixChars as bs else []
  | _, _ => []

/-- `is_within_directory(directory, target)` from src/train.py lines 83-87:
take `os.path.abspath` of both, then test whether the character-wise
common prefix of the two rendered strings equals the absolute directory. -/
def is_within_directory (directory target : String) : Bool :=
  let abs_directory := abspathStr directory
  let abs_target := abspathStr target
  String.mk (commonPrefixChars abs_directory.toList abs_target.toList) == abs_directory

/-- `os.path.join(path, name)` for a relative member name, as used at
src/train.py line 91. -/
def joinPath (path name : String) : String :=
  path ++ "/" ++ name

/-- The specification notion of descendant: every component of the
normalized root is a prefix (component-wise) of the normalized target. -/
def isDescendantOf (root target : String) : Bool :=
  (normComps root).isPrefixOf (normComps target)

/-- The member check of `safe_extract` (src/train.py lines 89-93): every
member must pass `is_within_directory` against the extraction path; only
then does `tar.extractall` run. -/
def safe_extract_check (path : String) (members : List String) : Bool :=
  members.all (fun m => is_within_directory path (joinPath path m))

/-- Absolute destinations written by `tar.extractall(path)` once the check
has passed: each member lands at the resolved join of path and its name. -/
def extractallWrites (path : String) (members : List String) : List String :=
  members.map (fun m => abspathStr (joinPath path m))

/-! ## ArchiveExtractor: extract_model (src/train.py lines 57-123)

The two `tarfile.open` attempts are abstracted by the outcome each mode
produces on the given archive: either the list of member names, or an
exception class.  `gzip.BadGzipFile` is the one class with its own
handler; every other exception raised while opening or extracting in
gzip mode is caught by the generic handler at line 101 and triggers the
raw-copy fallback, while an exception raised inside the BadGzipFile
handler (the plain-tar retry, lines 99-100) propagates to the caller. -/

/-- Exception classes distinguished by the control flow of extract_model. -/
inductive PyExc where
  | badGzipFile
  | traversal
  | readError
  | noFilesExtracted
  | otherExc
deriving DecidableEq, Repr

/-- Outcome of one `tarfile.open` mode on the archive: the member names
it would yield, or the exception class the open or read raises. -/
abbrev OpenOutcome := Except PyExc (List String)

/-- Behaviour of one archive under the two open modes tried by the code. -/
structure ArchiveBehavior where
  gzOpen : OpenOutcome
  plainOpen : OpenOutcome

/-- Deduplicate keeping first occurrences (order of `os.listdir` after
extraction of a fresh directory: one entry per distinct top component). -/
def dedupFirst (seen : List String) : List String → List String
  | [] => []
  | x :: xs =>
    if x ∈ seen then dedupFirst seen xs else x :: dedupFirst (x :: seen) xs

/-- The top-level entry a member creates inside the extraction directory,
if any: when the resolved destination of the member is a strict
descendant of the directory, the entry is the first path component below
it; a member resolving outside the directory creates no entry there
(`os.listdir` never reports dot-dot and never sees files written
elsewhere). -/
def memberEntry (path m : String) : Option String :=
  let root := normComps path
  let tgt := normComps (joinPath path m)
  if root.isPrefixOf tgt then (tgt.drop root.length).head? else none

/-- Top-level entries listed by `os.listdir` in the extraction directory
after `extractall` of the given members into a fresh directory. -/
def topLevelEntries (path : String) (members : List String) : List String :=
  dedupFirst [] (members.filterMap (memberEntry path))

/-- One open-plus-safe_extract attempt: on a successful open, run the
member check of safe_extract; if it passes, extractall writes every
member and the attempt yields the top-level listing and the written
paths, otherwise the traversal exception is raised. -/
def attemptExtract (openRes : OpenOutcome) (path : String) :
    Except PyExc (List String × List String) :=
  match openRes with
  | .error e => .error e
  | .ok members =>
    if safe_extract_check path members then
      .ok (topLevelEntries path members, extractallWrites path members)
    else
      .error .traversal

/-- The tail of extract_model after a successful untar (src/train.py
lines 107-116): an empty listing raises, a singleton listing returns the
joined entry path, anything else returns the extraction path. -/
def finishExtract (path : String) (r : List String × List String) :
    Except PyExc (String × List String) :=
  match r.1 with
  | [] => .error .noFilesExtracted
  | [e] => .ok (joinPath path e, r.2)
  | _ :: _ :: _ => .ok (path, r.2)

/-- `extract_model` (src/train.py lines 81-116) given the behaviour of
the archive: try gzip mode; on BadGzipFile retry in plain-tar mode, any
failure of the retry propagating; on any other gzip-mode failure fall
back to a raw copy of the archive to the fixed name model.bin inside the
extraction path and return that path.  The result carries the returned
path and the list of absolute destinations written. -/
def extract_model (arch : ArchiveBehavior) (path : String) :
    Except PyExc (String × List String) :=
  match attemptExtract arch.gzOpen path with
  | .ok r => finishExtract path r
  | .error .badGzipFile =>
    match attemptExtract arch.plainOpen path with
    | .ok r => finishExtract path r
    | .error e => .error e
  | .error _ => .ok (path, [abspathStr (joinPath path "model.bin")])

/-! ## JobMonitor: monitor_training_job (src/start_training.py lines 161-193)

The loop polls `describe()` while the recorded status is not terminal.
Each poll is abstracted by its outcome: a job description, or a raised
exception.  The loop body logs and emits metrics exactly when the
observed status differs from the recorded one, then records it; an
exception from describe is re-raised by the handler at lines 190-192,
aborting the loop.  The run is driven by the finite list of outcomes the
backend would produce for successive describe calls. -/

/-- Training job status as reported by the backend. -/
inductive JobStatus where
  | Pending
  | InProgress
  | Completed
  | Failed
  | Stopped
deriving DecidableEq, Repr

/-- The terminal set of the while condition at line 167. -/
def isTerminal : JobStatus → Bool
  | .Completed => true
  | .Failed => true
  | .Stopped => true
  | _ => false

/-- The fields of a describe result that the loop body reads. -/
structure JobDescription where
  status : JobStatus
  secondaryStatus : String
  failureReason : Option String
  instanceCount : Nat
  billableTimeSeconds : Option Nat
deriving DecidableEq, Repr

/-- Outcome of one describe call: a description or a raised exception. -/
abbrev PollOutcome := Except PyExc JobDescription

/-- Result of the monitor loop on a finite list of poll outcomes:
`finished` with the returned pair once a terminal status is recorded,
`aborted` when a describe call raised, `polling` when the outcome list
was exhausted with the loop still running. -/
inductive MonitorResult where
  | finished (status : JobStatus) (description : JobDescription)
  | aborted (e : PyExc)
  | polling
deriving DecidableEq, Repr

/-- One run of the monitor loop from a recorded status, returning the
number of status-change events emitted and the result.  A status-change
event is the log-plus-metric block guarded by the comparison at line 171. -/
def monitorRun (status : Option JobStatus) :
    List PollOutcome → Nat × MonitorResult
  | [] => (0, .polling)
  | .error e :: _ => (0, .aborted e)
  | .ok d :: ps =>
    let ev := if some d.status ≠ status then 1 else 0
    if isTerminal d.status then
      (ev, .finished d.status d)
    else
      let rest := monitorRun (some d.status) ps
      (ev + rest.1, rest.2)

/-- The statuses the loop actually observes from a list of outcomes: it
stops consuming at the first terminal status and at the first exception. -/
def observedStatuses : List PollOutcome → List JobStatus
  | [] => []
  | .error _ :: _ => []
  | .ok d :: ps =>
    if isTerminal d.status then [d.status]
    else d.status :: observedStatuses ps

/-- Number of positions of a status sequence whose status differs from
the previously recorded one (the recorded status before the first
element being the given one). -/
def countChanges (prev : Option JobStatus) : List JobStatus → Nat
  | [] => 0
  | s :: ss => (if some s ≠ prev then 1 else 0) + countChanges (some s) ss

/-! ## ConfigMaterializer: load_and_validate_config and the merge step of
train (src/train.py lines 172-225)

A parsed YAML mapping is an association list from key to value; dict
assignment overwrites the value of an existing key and appends a new
one.  `load_and_validate_config` checks key presence only (`key not in
config`), and train() applies its overrides after that validation. -/

/-- A parsed configuration document: keys to string values. -/
abbrev Config := List (String × String)

/-- Python `key in config` on a dict. -/
def hasKey (c : Config) (k : String) : Bool :=
  c.any (fun p => p.1 == k)

/-- Python `config[key]` lookup as an option: the value of the first
entry whose key matches. -/
def getKey : Config → String → Option String
  | [], _ => none
  | p :: c, k => if p.1 == k then some p.2 else getKey c k

/-- Python `config[key] = v`: overwrite in place, append when absent. -/
def setKey (c : Config) (k v : String) : Config :=
  if hasKey c k then
    c.map (fun p => if p.1 == k then (k, v) else p)
  else
    c ++ [(k, v)]

/-- The required keys of src/train.py line 190. -/
def requiredKeys : List String :=
  [ "model_id_or_path", "data"]

/-- The missing-key computation of src/train.py line 191. -/
def missingKeys (c : Config) : List String :=
  requiredKeys.filter (fun k => ¬ hasKey c k)

/-- `load_and_validate_config` (src/train.py lines 182-194) on an
already-parsed mapping: raise listing the missing required keys when any
is absent, return the document otherwise. -/
def load_and_validate_config (c : Config) : Except (List String) Config :=
  if missingKeys c = [] then .ok c else .error (missingKeys c)

/-- The fixed fallback model of src/train.py line 220. -/
def defaultModelId : String :=
  "mistralai/Mistral-7B-v0.3"

/-- The override block of train() (src/train.py lines 206-221): a truthy
SM_CHANNEL_MODEL value becomes model_id_or_path, otherwise the fixed
default does; run_dir is then set to the model directory. -/
def applyTrainOverrides (c : Config) (smChannelModel : Option String)
    (modelDir : String) : Config :=
  let c :=
    match smChannelModel with
    | some p => if p ≠ "" then setKey c "model_id_or_path" p
                else setKey c "model_id_or_path" defaultModelId
    | none => setKey c "model_id_or_path" defaultModelId
  setKey c "run_dir" modelDir

/-- The config phase of train() (src/train.py lines 205-223): validate
the base document, then apply the overrides and persist the result. -/
def trainMaterialize (base : Config) (smChannelModel : Option String)
    (modelDir : String) : Except (List String) Config :=
  match load_and_validate_config base with
  | .error e => .error e
  | .ok c => .ok (applyTrainOverrides c smChannelModel modelDir)

/-! ## LaunchCommandBuilder (src/train.py lines 230-245 and
src/sagemaker_train.py lines 104-137) -/

/-- The command construction of train() (src/train.py lines 231-245):
torchrun with the GPU count when positive, plain interpreter otherwise. -/
def buildCmd (numGpus : Nat) (pythonExe trainingScript configPath : String) :
    List String :=
  if numGpus > 0 then
    [ "torchrun", "--nproc-per-node", toString numGpus, trainingScript,
      "--config", configPath]
  else
    [ pythonExe, trainingScript, "--config", configPath]

/-- `_process_constructor` (src/sagemaker_train.py lines 104-137): raise
when the training script is absent, otherwise build the module-mode
command, distributed exactly when the GPU count is positive. -/
def processConstructor (trainingScriptExists : Bool) (numGpus : Nat) :
    Except String (List String) :=
  if ¬ trainingScriptExists then
    .error "Training script not found"
  else if numGpus > 0 then
    .ok [ "torchrun", "--nproc-per-node", toString numGpus, "-m",
          "mistral_finetune.train", "config.yaml"]
  else
    .ok [ "python", "-m", "mistral_finetune.train", "config.yaml"]

/-! ## GPU enumeration: check_gpu_availability (src/train.py lines 36-55,
identical logic in src/sagemaker_train.py lines 37-56)

On a successful nvidia-smi run the count is
`len(stdout.strip().split(chr 10))`; on CalledProcessError or
FileNotFoundError it is 0.  Python string strip and split are modelled
directly on character lists. -/

/-- The whitespace characters removed by Python str.strip. -/
def isPyWs (c : Char) : Bool :=
  c == ' ' || c == '\t' || c == '\n' || c == '\r' || c == '\x0b' || c == '\x0c'

/-- Python str.strip on a character list. -/
def pyStrip (l : List Char) : List Char :=
  ((l.dropWhile isPyWs).reverse.dropWhile isPyWs).reverse

/-- Python str.split on the newline separator. -/
def pySplitNl (l : List Char) : List (List Char) :=
  pySplit '\n' l

/-- `check_gpu_availability` given the outcome of the nvidia-smi
subprocess: the line count of the stripped stdout on success, 0 when the
utility is absent or exits nonzero. -/
def check_gpu_availability (runOutcome : Except Unit String) : Nat :=
  match runOutcome with
  | .ok stdout => (pySplitNl (pyStrip stdout.toList)).length
  | .error _ => 0

/-- Decidable equality on exception-or-value results, for evaluating the
embedded functions on concrete inputs. -/
instance {ε α : Type} [DecidableEq ε] [DecidableEq α] :
    DecidableEq (Except ε α) := fun x y =>
  match x, y with
  | .ok a, .ok b =>
    if h : a = b then .isTrue (by rw [h])
    else .isFalse (by intro he; cases he; exact h rfl)
  | .ok _, .error _ => .isFalse (by intro he; cases he)
  | .error _, .ok _ => .isFalse (by intro he; cases he)
  | .error e, .error f =>
    if h : e = f then .isTrue (by rw [h])
    else .isFalse (by intro he; cases he; exact h rfl)

/-- A non-terminal description used to drive the monitor on concrete runs. -/
def sampleInProgress : JobDescription :=
  ⟨.InProgress, "Training", none, 1, none⟩

/-- A terminal description used to drive the monitor on concrete runs. -/
def sampleCompleted : JobDescription :=
  ⟨.Completed, "Completed", none, 1, some 120⟩

/-! # Theorems -/

/-- Python str.split never returns an empty field list. -/
theorem pySplit_ne_nil (sep : Char) (l : List Char) : pySplit sep l ≠ [] := by
  cases l with
  | nil => simp [pySplit]
  | cons c cs =>
    simp only [pySplit]
    split
    · simp
    · split <;> simp

/-- Specialization to the newline separator. -/
theorem pySplitNl_ne_nil (l : List Char) : pySplitNl l ≠ [] :=
  pySplit_ne_nil '\n' l

/-- C9: whenever nvidia-smi runs successfully the reported GPU count is
the number of newline-separated fields of the stripped standard output,
hence at least 1 on every successful run; in particular a successful run
with empty output reports 1 GPU, not 0. -/
theorem gpu_count_is_line_count (out : String) :
    check_gpu_availability (.ok out) = (pySplitNl (pyStrip out.toList)).length ∧
    1 ≤ check_gpu_availability (.ok out) ∧
    check_gpu_availability (.ok "") = 1 := by
  refine ⟨rfl, ?_, rfl⟩
  exact List.length_pos.mpr (pySplitNl_ne_nil (pyStrip out.toList))

/-- C1 (code bug evidence): a gzip tar whose single member is
`../models_evil/passwd`, extracted into `/opt/ml/models`, passes the
safe_extract member check (the commonprefix test compares string
characters, and `/opt/ml/models` is a character-wise prefix of
`/opt/ml/models_evil/passwd`), so extractall runs and writes
`/opt/ml/models_evil/passwd`, which is not a descendant of the
destination root.  The fresh destination directory then lists nothing
(the file went outside it), so extract_model raises the generic
no-files-extracted exception of line 110 — the run fails, but not with
a PathTraversalError, and the file has already landed outside destRoot.
Moreover, for the member `../../etc/passwd` the check does fire, but
the raised exception is caught by the generic handler and converted
into the raw-copy fallback: extract_model returns success with no
PathTraversalError. -/
theorem safe_extract_escape_bug :
    safe_extract_check "/opt/ml/models" [ "../models_evil/passwd"] = true ∧
    extractallWrites "/opt/ml/models" [ "../models_evil/passwd"] =
      [ "/opt/ml/models_evil/passwd"] ∧
    isDescendantOf "/opt/ml/models" "/opt/ml/models_evil/passwd" = false ∧
    extract_model ⟨.ok [ "../models_evil/passwd"], .ok []⟩ "/opt/ml/models" =
      .error .noFilesExtracted ∧
    extract_model ⟨.ok [ "../../etc/passwd"], .ok []⟩ "/opt/ml/models" =
      .ok ( "/opt/ml/models", [ "/opt/ml/models/model.bin"]) := by
  refine ⟨by decide, by decide, by decide, by decide, by decide⟩

/-- C6: the launch command is a pure function of the GPU count and the
config path: zero GPUs always yields the single-process invocation and a
positive count always yields the torchrun invocation with process count
equal to the GPU count, in both launcher variants, with no failure
(given, for the sagemaker variant, that the training script is present,
its only checked precondition). -/
theorem launch_command_gpu_determinism (n : Nat) (exe script cfg : String) :
    buildCmd 0 exe script cfg = [ exe, script, "--config", cfg] ∧
    (0 < n → buildCmd n exe script cfg =
      [ "torchrun", "--nproc-per-node", toString n, script, "--config", cfg]) ∧
    processConstructor true 0 =
      .ok [ "python", "-m", "mistral_finetune.train", "config.yaml"] ∧
    (0 < n → processConstructor true n =
      .ok [ "torchrun", "--nproc-per-node", toString n, "-m",
            "mistral_finetune.train", "config.yaml"]) := by
  refine ⟨rfl, ?_, rfl, ?_⟩ <;> intro h
  · simp [buildCmd, h]
  · simp [processConstructor, h, Nat.pos_iff_ne_zero.mp h]

/-- Witness for C6 at GPU counts 0 and 2. -/
theorem launch_command_gpu_determinism_witness :
    buildCmd 0 "python3" "train.py" "cfg.yaml" =
      [ "python3", "train.py", "--config", "cfg.yaml"] ∧
    buildCmd 2 "python3" "train.py" "cfg.yaml" =
      [ "torchrun", "--nproc-per-node", "2", "train.py", "--config", "cfg.yaml"] ∧
    processConstructor true 2 =
      .ok [ "torchrun", "--nproc-per-node", "2", "-m",
            "mistral_finetune.train", "config.yaml"] := by
  have h := launch_command_gpu_determinism 2 "python3" "train.py" "cfg.yaml"
  exact ⟨h.1, h.2.1 (by decide), h.2.2.2 (by decide)⟩

/-- The number of status-change events the monitor emits equals the
number of changes along the status sequence it observes. -/
theorem monitorRun_events_eq_countChanges (ps : List PollOutcome)
    (prev : Option JobStatus) :
    (monitorRun prev ps).1 = countChanges prev (observedStatuses ps) := by
  induction ps generalizing prev with
  | nil => rfl
  | cons p ps ih =>
    cases p with
    | error e => rfl
    | ok d =>
      by_cases ht : isTerminal d.status
      · simp [monitorRun, observedStatuses, countChanges, ht]
      · simp [monitorRun, observedStatuses, countChanges, ht, ih]

/-- C2: a status-change event is emitted exactly when the observed
status differs from the previously recorded one: for every poll-outcome
sequence the event count equals the number of such differing positions
along the observed statuses, and the sequence InProgress, InProgress,
InProgress, Completed emits exactly two events, not four. -/
theorem monitor_status_change_idempotence (ps : List PollOutcome) :
    (monitorRun none ps).1 = countChanges none (observedStatuses ps) ∧
    (monitorRun none [ .ok sampleInProgress, .ok sampleInProgress,
        .ok sampleInProgress, .ok sampleCompleted]).1 = 2 :=
  ⟨monitorRun_events_eq_countChanges ps none, by decide⟩

/-- Reaching the first terminal description of a pure poll sequence. -/
theorem monitorRun_first_terminal (ds : List JobDescription)
    (prev : Option JobStatus) (h : ∃ d ∈ ds, isTerminal d.status = true) :
    ∃ d ∈ ds, isTerminal d.status = true ∧
      (monitorRun prev (ds.map Except.ok)).2 = .finished d.status d ∧
      observedStatuses (ds.map Except.ok) =
        (ds.map JobDescription.status).takeWhile (fun s => ¬ isTerminal s)
          ++ [d.status] := by
  induction ds generalizing prev with
  | nil => simp at h
  | cons d ds ih =>
    by_cases ht : isTerminal d.status
    · refine ⟨d, by simp, ht, ?_, ?_⟩
      · simp [monitorRun, ht]
      · simp [observedStatuses, List.takeWhile, ht]
    · have h2 : ∃ x ∈ ds, isTerminal x.status = true := by
        rcases h with ⟨x, hx, hxt⟩
        rcases List.mem_cons.mp hx with rfl | hx2
        · exact absurd hxt (by simp [ht])
        · exact ⟨x, hx2, hxt⟩
      rcases ih (some d.status) h2 with ⟨x, hx, hxt, hrun, hobs⟩
      refine ⟨x, List.mem_cons_of_mem d hx, hxt, ?_, ?_⟩
      · simp [monitorRun, ht, hrun]
      · simp [observedStatuses, List.takeWhile, ht, hobs]

/-- C3: for every pure poll sequence ending in a terminal status the
monitor loop terminates, returning a terminal status together with the
full description that carried it, and it stops at the first terminal
status it observes: the observed statuses are exactly the non-terminal
prefix followed by that terminal status, so no poll happens after it. -/
theorem monitor_terminal_convergence (ds : List JobDescription)
    (dlast : JobDescription) (hlast : ds.getLast? = some dlast)
    (hterm : isTerminal dlast.status = true) :
    ∃ d ∈ ds, isTerminal d.status = true ∧
      (monitorRun none (ds.map Except.ok)).2 = .finished d.status d ∧
      observedStatuses (ds.map Except.ok) =
        (ds.map JobDescription.status).takeWhile (fun s => ¬ isTerminal s)
          ++ [d.status] := by
  have hmem : dlast ∈ ds := by
    rcases List.mem_getLast?_eq_getLast (Option.mem_def.mpr hlast) with ⟨hne, heq⟩
    exact heq ▸ List.getLast_mem hne
  exact monitorRun_first_terminal ds none ⟨dlast, hmem, hterm⟩

/-- Witness for C3 on the run InProgress, Completed. -/
theorem monitor_terminal_convergence_witness :
    ∃ d ∈ [ sampleInProgress, sampleCompleted], isTerminal d.status = true ∧
      (monitorRun none ([ sampleInProgress, sampleCompleted].map Except.ok)).2 =
        .finished d.status d ∧
      observedStatuses ([ sampleInProgress, sampleCompleted].map Except.ok) =
        (([ sampleInProgress, sampleCompleted].map JobDescription.status).takeWhile
          (fun s => ¬ isTerminal s)) ++ [d.status] :=
  monitor_terminal_convergence [ sampleInProgress, sampleCompleted]
    sampleCompleted (by decide) (by decide)

/-- C8: an exception raised by a describe call is propagated at once:
however many non-terminal polls preceded it, the run aborts with exactly
that exception, whatever outcomes would have followed (so the failed
poll is never retried and monitoring never continues), and the observed
statuses stop at the polls before the failure. -/
theorem monitor_poll_error_propagates (pre : List JobDescription)
    (e : PyExc) (rest : List PollOutcome) (prev : Option JobStatus)
    (hpre : ∀ d ∈ pre, isTerminal d.status = false) :
    (monitorRun prev (pre.map Except.ok ++ .error e :: rest)).2 = .aborted e ∧
    observedStatuses (pre.map Except.ok ++ .error e :: rest) =
      pre.map JobDescription.status := by
  induction pre generalizing prev with
  | nil => exact ⟨rfl, rfl⟩
  | cons d ds ih =>
    have hd : isTerminal d.status = false := hpre d (by simp)
    have hds : ∀ x ∈ ds, isTerminal x.status = false := by
      intro x hx
      exact hpre x (List.mem_cons_of_mem d hx)
    rcases ih (some d.status) hds with ⟨h1, h2⟩
    constructor
    · simp [monitorRun, hd, h1]
    · simp [observedStatuses, hd, h2]

/-- Witness for C8: one InProgress poll, then a failing describe call,
with a Completed description available afterwards that is never polled. -/
theorem monitor_poll_error_propagates_witness :
    (monitorRun none ([ sampleInProgress].map Except.ok ++
        .error PyExc.otherExc :: [ .ok sampleCompleted])).2 =
      .aborted PyExc.otherExc ∧
    observedStatuses ([ sampleInProgress].map Except.ok ++
        .error PyExc.otherExc :: [ .ok sampleCompleted]) =
      [ sampleInProgress].map JobDescription.status :=
  monitor_poll_error_propagates [ sampleInProgress] PyExc.otherExc
    [ .ok sampleCompleted] none (by decide)

/-- C5: extract_model first attempts decompression plus untar; on the
recognized not-gzip signal it retries the same archive as a plain tar,
a failure of that retry propagating; and on any other failure of the
first attempt it falls back to a raw byte copy of the archive into the
fixed name model.bin inside the destination root and returns that root,
treating the artifact as an opaque single file. -/
theorem extract_model_strategy_order (arch : ArchiveBehavior) (path : String) :
    (∀ r, attemptExtract arch.gzOpen path = .ok r →
      extract_model arch path = finishExtract path r) ∧
    (∀ r, attemptExtract arch.gzOpen path = .error .badGzipFile →
      attemptExtract arch.plainOpen path = .ok r →
      extract_model arch path = finishExtract path r) ∧
    (∀ e, attemptExtract arch.gzOpen path = .error .badGzipFile →
      attemptExtract arch.plainOpen path = .error e →
      extract_model arch path = .error e) ∧
    (∀ e, attemptExtract arch.gzOpen path = .error e → e ≠ .badGzipFile →
      extract_model arch path =
        .ok (path, [ abspathStr (joinPath path "model.bin")])) := by
  refine ⟨?_, ?_, ?_, ?_⟩
  · intro r h
    simp [extract_model, h]
  · intro r h h2
    simp [extract_model, h, h2]
  · intro e h h2
    simp [extract_model, h, h2]
  · intro e h hne
    cases e with
    | badGzipFile => exact absurd rfl hne
    | traversal => simp [extract_model, h]
    | readError => simp [extract_model, h]
    | noFilesExtracted => simp [extract_model, h]
    | otherExc => simp [extract_model, h]

/-- Witness for C5: a gzip-mode failure other than the not-gzip signal
(a gzip stream that is not a tar) triggers the raw-copy fallback, and
the not-gzip signal triggers the plain-tar retry. -/
theorem extract_model_strategy_order_witness :
    extract_model ⟨.error .readError, .ok [ "a"]⟩ "/tmp/dest" =
      .ok ( "/tmp/dest", [ "/tmp/dest/model.bin"]) ∧
    extract_model ⟨.error .badGzipFile, .ok [ "a", "b"]⟩ "/tmp/dest" =
      .ok ( "/tmp/dest", [ "/tmp/dest/a", "/tmp/dest/b"]) ∧
    extract_model ⟨.error .badGzipFile, .error .readError⟩ "/tmp/dest" =
      .error .readError := by
  have h1 := (extract_model_strategy_order ⟨.error .readError, .ok [ "a"]⟩
    "/tmp/dest").2.2.2 .readError (by decide) (by decide)
  have h2 := (extract_model_strategy_order ⟨.error .badGzipFile, .ok [ "a", "b"]⟩
    "/tmp/dest").2.1 (topLevelEntries "/tmp/dest" [ "a", "b"],
      extractallWrites "/tmp/dest" [ "a", "b"]) (by decide) (by decide)
  have h3 := (extract_model_strategy_order ⟨.error .badGzipFile, .error .readError⟩
    "/tmp/dest").2.2.1 .readError (by decide) (by decide)
  refine ⟨?_, ?_, h3⟩
  · rw [h1]
    decide
  · rw [h2]
    decide

/-- C7: when an untar attempt succeeds, a single resulting top-level
entry makes extract_model return the path of that entry inside the
destination root, and more than one makes it return the root itself. -/
theorem extract_model_single_wrapper (arch : ArchiveBehavior) (path : String)
    (entries writes : List String)
    (hok : attemptExtract arch.gzOpen path = .ok (entries, writes) ∨
      (attemptExtract arch.gzOpen path = .error .badGzipFile ∧
        attemptExtract arch.plainOpen path = .ok (entries, writes))) :
    (∀ e, entries = [e] →
      extract_model arch path = .ok (joinPath path e, writes)) ∧
    (2 ≤ entries.length → extract_model arch path = .ok (path, writes)) := by
  have hx : extract_model arch path = finishExtract path (entries, writes) := by
    rcases hok with h | ⟨h1, h2⟩
    · simp [extract_model, h]
    · simp [extract_model, h1, h2]
  constructor
  · intro e he
    subst he
    simp [hx, finishExtract]
  · intro hlen
    rw [hx]
    match entries, hlen with
    | a :: b :: es, _ => rfl

/-- Witness for C7: an archive whose only top-level entry is the
directory model resolves to destRoot/model, and a two-entry archive
resolves to destRoot itself. -/
theorem extract_model_single_wrapper_witness :
    extract_model ⟨.ok [ "model/weights.bin", "model/params.json"], .ok []⟩
      "/tmp/dest" = .ok ( "/tmp/dest/model",
        [ "/tmp/dest/model/weights.bin", "/tmp/dest/model/params.json"]) ∧
    extract_model ⟨.ok [ "a.bin", "b.bin"], .ok []⟩ "/tmp/dest" =
      .ok ( "/tmp/dest", [ "/tmp/dest/a.bin", "/tmp/dest/b.bin"]) := by
  have h1 := (extract_model_single_wrapper
    ⟨.ok [ "model/weights.bin", "model/params.json"], .ok []⟩ "/tmp/dest"
    (topLevelEntries "/tmp/dest" [ "model/weights.bin", "model/params.json"])
    (extractallWrites "/tmp/dest" [ "model/weights.bin", "model/params.json"])
    (Or.inl (by decide))).1 "model" (by decide)
  have h2 := (extract_model_single_wrapper
    ⟨.ok [ "a.bin", "b.bin"], .ok []⟩ "/tmp/dest"
    (topLevelEntries "/tmp/dest" [ "a.bin", "b.bin"])
    (extractallWrites "/tmp/dest" [ "a.bin", "b.bin"])
    (Or.inl (by decide))).2 (by decide)
  refine ⟨?_, ?_⟩
  · rw [h1]
    decide
  · rw [h2]
    decide

/-- Lookup over the overwrite map of setKey at a present key yields the
new value. -/
theorem getKey_overwrite (c : Config) (k v : String) (h : hasKey c k = true) :
    getKey (c.map (fun p => if p.1 == k then (k, v) else p)) k = some v := by
  induction c with
  | nil => simp [hasKey] at h
  | cons p c ih =>
    by_cases hp : (p.1 == k) = true
    · simp [getKey, hp]
    · have h2 : hasKey c k = true := by
        simpa [hasKey, hp] using h
      simp only [List.map_cons, if_neg hp, getKey]
      exact ih h2

/-- Lookup after appending an entry for an absent key yields its value. -/
theorem getKey_append_fresh (c : Config) (k v : String)
    (h : hasKey c k = false) :
    getKey (c ++ [(k, v)]) k = some v := by
  induction c with
  | nil => simp [getKey]
  | cons p c ih =>
    simp only [hasKey, List.any_cons, Bool.or_eq_false_iff] at h
    simp [getKey, h.1, ih h.2]

/-- Dict assignment followed by lookup at the same key yields the
assigned value. -/
theorem getKey_setKey_self (c : Config) (k v : String) :
    getKey (setKey c k v) k = some v := by
  unfold setKey
  cases h : hasKey c k with
  | true => rw [if_pos rfl]; exact getKey_overwrite c k v h
  | false => rw [if_neg (by simp [h])]; exact getKey_append_fresh c k v h

/-- The overwrite map of setKey leaves lookups at other keys unchanged. -/
theorem getKey_overwrite_ne (c : Config) (k k' v : String) (hne : k ≠ k') :
    getKey (c.map (fun p => if p.1 == k' then (k', v) else p)) k = getKey c k := by
  have hk'k : (k' == k) = false := by simpa using Ne.symm hne
  induction c with
  | nil => rfl
  | cons p c ih =>
    by_cases hp : (p.1 == k') = true
    · have hpe : p.1 = k' := by simpa using hp
      have hpk : (p.1 == k) = false := by
        rw [hpe]
        exact hk'k
      simp only [List.map_cons, if_pos hp, getKey]
      rw [if_neg (by simp [hk'k]), if_neg (by simp [hpk])]
      exact ih
    · simp only [List.map_cons, if_neg hp, getKey]
      cases hk : (p.1 == k)
      · simpa using ih
      · simp

/-- Appending an entry for another key leaves lookups unchanged. -/
theorem getKey_append_ne (c : Config) (k k' v : String) (hne : k ≠ k') :
    getKey (c ++ [(k', v)]) k = getKey c k := by
  have hk'k : (k' == k) = false := by simpa using Ne.symm hne
  induction c with
  | nil => simp [getKey, hk'k]
  | cons p c ih =>
    cases hk : (p.1 == k) <;> simp [getKey, hk, ih]

/-- Dict assignment at one key leaves lookups at a different key
unchanged. -/
theorem getKey_setKey_ne (c : Config) (k k' v : String) (hne : k ≠ k') :
    getKey (setKey c k' v) k = getKey c k := by
  unfold setKey
  split
  · exact getKey_overwrite_ne c k k' v hne
  · exact getKey_append_ne c k k' v hne

/-- C4 counterexample: a base document missing model_id_or_path, with
the override supplying it, is rejected by the code even though the
merged document contains every required key: the required-key check
runs on the base document, not on the final merged one. -/
theorem config_validation_not_on_merged :
    trainMaterialize [ ( "data", "x")] (some "/local/model") "/opt/ml/model" =
      .error [ "model_id_or_path"] ∧
    missingKeys (applyTrainOverrides [ ( "data", "x")] (some "/local/model")
      "/opt/ml/model") = [] :=
  ⟨by decide, by decide⟩

/-- C4 amended: the required keys model_id_or_path and data are enforced
on the base document before the overrides are applied: materialization
fails with the list of missing keys exactly when the base document lacks
one of them, whatever the overrides supply; key presence alone is
checked, so the spec scenario with a present-but-empty model_id_or_path
passes validation and materializes to the expected merged document. -/
theorem config_validation_on_base (base : Config) (ch : Option String)
    (dir : String) :
    ((∃ c, trainMaterialize base ch dir = .ok c) ↔ missingKeys base = []) ∧
    (missingKeys base ≠ [] →
      trainMaterialize base ch dir = .error (missingKeys base)) ∧
    trainMaterialize [ ( "model_id_or_path", ""), ( "data", "x")]
        (some "/local/model") "/opt/ml/model" =
      .ok [ ( "model_id_or_path", "/local/model"), ( "data", "x"),
            ( "run_dir", "/opt/ml/model")] := by
  refine ⟨⟨?_, ?_⟩, ?_, by decide⟩
  · rintro ⟨c, hc⟩
    by_contra h
    simp [trainMaterialize, load_and_validate_config, h] at hc
  · intro h
    refine ⟨applyTrainOverrides base ch dir, ?_⟩
    unfold trainMaterialize load_and_validate_config
    rw [if_pos h]
  · intro h
    simp [trainMaterialize, load_and_validate_config, h]

/-- Witness for C4 amended: a complete base materializes, the empty base
fails listing its missing keys. -/
theorem config_validation_on_base_witness :
    (∃ c, trainMaterialize [ ( "model_id_or_path", "m"), ( "data", "d")]
      none "/x" = .ok c) ∧
    trainMaterialize ([] : Config) none "/x" =
      .error (missingKeys ([] : Config)) := by
  have h1 := config_validation_on_base
    [ ( "model_id_or_path", "m"), ( "data", "d")] none "/x"
  have h2 := config_validation_on_base ([] : Config) none "/x"
  exact ⟨h1.1.mpr (by decide), h2.2.1 (by decide)⟩

/-- C10: with SM_CHANNEL_MODEL unset or empty, train does not fail: on
any base document passing validation it materializes a configuration
whose model_id_or_path is the fixed remote default
mistralai/Mistral-7B-v0.3. -/
theorem train_default_model_when_channel_empty (base : Config) (dir : String)
    (ch : Option String) (hok : missingKeys base = [])
    (hch : ch = none ∨ ch = some "") :
    ∃ c, trainMaterialize base ch dir = .ok c ∧
      getKey c "model_id_or_path" = some defaultModelId := by
  refine ⟨applyTrainOverrides base ch dir, ?_, ?_⟩
  · unfold trainMaterialize load_and_validate_config
    rw [if_pos hok]
  · rcases hch with rfl | rfl <;>
    · simp only [applyTrainOverrides, ne_eq, not_true_eq_false, if_false]
      rw [getKey_setKey_ne _ _ _ _ (by decide), getKey_setKey_self]

/-- Witness for C10 on a concrete validated base and the unset channel. -/
theorem train_default_model_when_channel_empty_witness :
    ∃ c, trainMaterialize [ ( "model_id_or_path", "x"), ( "data", "y")]
        none "/opt/ml/model" = .ok c ∧
      getKey c "model_id_or_path" = some defaultModelId :=
  train_default_model_when_channel_empty
    [ ( "model_id_or_path", "x"), ( "data", "y")] "/opt/ml/model" none
    (by decide) (Or.inl rfl)

end MfTest
